import Mathlib

/-!
Verification of the AV notification system core: a shallow embedding of the
bounded asynchronous queue (`async_queue.py`), the button debounce logic
(`hardware.py`), the display text sanitizer (`display_manager.py`), and the
notification state machine with its OSC wire-protocol encoder
(`state_manager.py`), together with theorems settling the specification's
claims about them.

Conventions: Python integers are `Int` (or `Nat` where the source value is
provably non-negative), Python lists are `List`, Python dicts keyed by pin
number are association lists, `raise` is `Except.error`, and a coroutine
suspension point is represented by an `Option`-valued partial operation
(`none` = the operation would suspend in this state).
-/

namespace AVNotif

/-! ### Bounded asynchronous queue (`async_queue.py`, class `AsyncQueue`) -/

/-- State of an `AsyncQueue`: the configured `maxsize`, the `maxlen` passed to
the internal `collections.deque`, and the items currently held (oldest first).
`dequeMaxlen` is `maxsize` when `maxsize > 0` and the fallback bound `20` when
`maxsize == 0`, exactly as computed in `AsyncQueue.__init__`. -/
structure AQueue (α : Type) where
  maxsize : Nat
  dequeMaxlen : Nat
  items : List α
deriving DecidableEq, Repr

/-- MicroPython `deque.append` with a `maxlen` bound: when the deque already
holds `maxlen` items, appending discards the item at the opposite (left) end. -/
def dequeAppend {α : Type} (maxlen : Nat) (l : List α) (x : α) : List α :=
  if maxlen ≤ l.length then l.tail ++ [x] else l ++ [x]

/-- Python `AsyncQueue.__init__` for a non-negative `maxsize`: the deque `maxlen` is
`maxsize` if positive, else the fallback bound `20`; the queue starts empty. -/
def newQueue (α : Type) (maxsize : Nat) : AQueue α :=
  { maxsize := maxsize
    dequeMaxlen := if 0 < maxsize then maxsize else 20
    items := [] }

/-- Python `AsyncQueue.__init__` validation: raises `ValueError` for negative
`maxsize`. -/
def initQueue (α : Type) (maxsize : Int) : Except Unit (AQueue α) :=
  if maxsize < 0 then Except.error () else Except.ok (newQueue α maxsize.toNat)

/-- Python `AsyncQueue.put`: the `while` loop waits while `maxsize > 0` and the queue
holds at least `maxsize` items; `none` means the coroutine suspends in this
state. Once past the loop, the item is appended to the internal deque. -/
def AQueue.tryPut {α : Type} (q : AQueue α) (x : α) : Option (AQueue α) :=
  if 0 < q.maxsize ∧ q.maxsize ≤ q.items.length then none
  else some { q with items := dequeAppend q.dequeMaxlen q.items x }

/-- Python `AsyncQueue.get`: waits while the deque is empty (`none` = suspends),
otherwise pops and returns the leftmost (oldest) item. -/
def AQueue.tryGet {α : Type} (q : AQueue α) : Option (α × AQueue α) :=
  match q.items with
  | [] => none
  | x :: rest => some (x, { q with items := rest })

/-- Python `AsyncQueue.qsize`. -/
def AQueue.qsize {α : Type} (q : AQueue α) : Nat := q.items.length

/-- Python `AsyncQueue.empty`. -/
def AQueue.isEmpty {α : Type} (q : AQueue α) : Bool := q.items.length == 0

/-- Python `AsyncQueue.full`: `self._maxsize > 0 and len(self._queue) >= self._maxsize`. -/
def AQueue.full {α : Type} (q : AQueue α) : Bool :=
  decide (0 < q.maxsize) && decide (q.maxsize ≤ q.items.length)

/-- One queue operation of an interleaved history. -/
inductive QOp (α : Type) where
  | put (x : α)
  | get
deriving DecidableEq, Repr

/-- Runs a sequence of queue operations, each at its commit point. The result
is `none` when some operation would suspend at its turn in this history;
otherwise the final queue and the items returned by the `get` operations, in
order. -/
def runOps {α : Type} (q : AQueue α) : List (QOp α) → Option (AQueue α × List α)
  | [] => some (q, [])
  | QOp.put x :: rest =>
    match q.tryPut x with
    | none => none
    | some q2 => runOps q2 rest
  | QOp.get :: rest =>
    match q.tryGet with
    | none => none
    | some (a, q2) =>
      match runOps q2 rest with
      | none => none
      | some (qf, gots) => some (qf, a :: gots)

/-- The items offered by the `put` operations of a history, in order. -/
def putsOf {α : Type} : List (QOp α) → List α
  | [] => []
  | QOp.put x :: rest => x :: putsOf rest
  | QOp.get :: rest => putsOf rest

/-! ### Button debounce (`hardware.py`, `Hardware._button_task`) -/

/-- Python `last_event_time` dict lookup (Python `pin_id in last_event_time` /
`last_event_time[pin_id]`). -/
def lookupPin : List (Nat × Int) → Nat → Option Int
  | [], _ => none
  | (p, t) :: rest, pin => if p = pin then some t else lookupPin rest pin

/-- Python `last_event_time[pin_id] = ts` dict assignment. -/
def insertPin : List (Nat × Int) → Nat → Int → List (Nat × Int)
  | [], pin, ts => [(pin, ts)]
  | (p, t) :: rest, pin, ts =>
    if p = pin then (pin, ts) :: rest else (p, t) :: insertPin rest pin ts

/-- Python `DEBOUNCE_MS = 200` in `_button_task`. -/
def DEBOUNCE_MS : Int := 200

/-- One debounce decision of `_button_task` for a mailbox read `(pin, ts)`:
the event is accepted when the pin has no recorded accepted timestamp or when
`ts - last_event_time[pin_id] > DEBOUNCE_MS`; on acceptance the pin's accepted
timestamp is recorded. -/
def debounceStep (m : List (Nat × Int)) (pin : Nat) (ts : Int) :
    List (Nat × Int) × Bool :=
  match lookupPin m pin with
  | none => (insertPin m pin ts, true)
  | some last =>
    if DEBOUNCE_MS < ts - last then (insertPin m pin ts, true) else (m, false)

/-- The debounce loop of `_button_task` over a sequence of mailbox reads,
returning the final per-pin accepted-timestamp dict and the accepted events
in order. -/
def debounceRun (m : List (Nat × Int)) :
    List (Nat × Int) → List (Nat × Int) × List (Nat × Int)
  | [] => (m, [])
  | (pin, ts) :: rest =>
    let s := debounceStep m pin ts
    let r := debounceRun s.1 rest
    (r.1, (if s.2 then [(pin, ts)] else []) ++ r.2)

/-! ### Display text sanitizer (`display_manager.py`,
`DisplayManager._sanitize_text`) -/

/-- Python `str.replace` for a single-character pattern: every occurrence of
`c` is replaced by the character sequence `r`. -/
def replaceChar (c : Char) (r : List Char) : List Char → List Char
  | [] => []
  | x :: xs => (if x = c then r else [x]) ++ replaceChar c r xs

/-- The chain of `str.replace` calls of `_sanitize_text`, in source order:
ä→ae, ö→oe, ü→ue, Ä→Ae, Ö→Oe, Ü→Ue, ß→ss. -/
def umlautReplace (l : List Char) : List Char :=
  replaceChar 'ß' ['s', 's']
    (replaceChar 'Ü' ['U', 'e']
      (replaceChar 'Ö' ['O', 'e']
        (replaceChar 'Ä' ['A', 'e']
          (replaceChar 'ü' ['u', 'e']
            (replaceChar 'ö' ['o', 'e']
              (replaceChar 'ä' ['a', 'e'] l))))))

/-- The character filter of `_sanitize_text`: code points 48-57 (digits),
65-90 (upper), 97-122 (lower), or the literal space, period, hyphen. -/
def allowedChar (c : Char) : Bool :=
  decide ((48 ≤ c.toNat ∧ c.toNat ≤ 57) ∨ (65 ≤ c.toNat ∧ c.toNat ≤ 90)
    ∨ (97 ≤ c.toNat ∧ c.toNat ≤ 122) ∨ c = ' ' ∨ c = '.' ∨ c = '-')

/-- Python `DisplayManager._sanitize_text`: umlaut transliteration followed by the
character filter. -/
def sanitize_text (s : String) : String :=
  String.mk ((umlautReplace s.data).filter allowedChar)

/-! ### OSC wire-protocol encoder (`state_manager.py`, `_osc_*` methods) -/

/-- UTF-8 encoding of one Unicode code point, as produced per character by
Python's `str.encode('utf-8')`. -/
def utf8EncodeChar (c : Char) : List Nat :=
  let n := c.toNat
  if n < 128 then [n]
  else if n < 2048 then [192 + n / 64, 128 + n % 64]
  else if n < 65536 then [224 + n / 4096, 128 + n / 64 % 64, 128 + n % 64]
  else [240 + n / 262144, 128 + n / 4096 % 64, 128 + n / 64 % 64, 128 + n % 64]

/-- UTF-8 byte sequence of a string (`s.encode('utf-8')`). -/
def utf8Encode (s : String) : List Nat := (s.data.map utf8EncodeChar).flatten

/-- Python `StateManager._osc_encode_string`: UTF-8 bytes, one NUL terminator, then
`(4 - len(b) % 4) % 4` NUL padding bytes. -/
def oscEncodeString (s : String) : List Nat :=
  let b := utf8Encode s ++ [0]
  b ++ List.replicate ((4 - b.length % 4) % 4) 0

/-- The four big-endian bytes of `n % 2^32`. -/
def beBytes4 (n : Nat) : List Nat :=
  [n / 16777216 % 256, n / 65536 % 256, n / 256 % 256, n % 256]

/-- Error kind surfaced by the OSC packet builder: the explicit
`ValueError("Unsupported OSC argument type: ...")` of `_osc_build_message`.
(On the MicroPython target, `struct.pack` performs no range check on integer
fields, so encoding a supported argument raises nothing.) -/
inductive OscError where
  | unsupportedArgument
deriving DecidableEq, Repr

/-- Python `StateManager._osc_encode_int`: `struct.pack('>i', i)` on the
MicroPython runtime this firmware targets — the four big-endian bytes of the
value's two's complement truncated to the low 32 bits; MicroPython's `struct`
performs no range check and never raises here. -/
def oscEncodeInt (i : Int) : List Nat := beBytes4 (i % 4294967296).toNat

/-- Python `StateManager._osc_encode_float`: `struct.pack('>f', f)` — the four
big-endian bytes of the argument's IEEE-754 single-precision bit pattern.
The argument is represented by that bit pattern. -/
def oscEncodeFloat (bits : Nat) : List Nat := beBytes4 (bits % 4294967296)

/-- The argument domain of `_osc_build_message`: Python `int`, `float`
(represented by its IEEE-754 single-precision bit pattern), `str`, or any
other type. -/
inductive OscArg where
  | int (i : Int)
  | float (bits : Nat)
  | str (s : String)
  | other
deriving DecidableEq, Repr

/-- Python `StateManager._osc_build_message`: encoded address, then encoded type tag
and encoded argument; raises `ValueError` (kind `unsupportedArgument`) for any
argument that is not an int, float, or string. -/
def oscBuildMessage (address : String) (arg : OscArg) : Except OscError (List Nat) :=
  match arg with
  | OscArg.int i =>
    Except.ok (oscEncodeString address ++ oscEncodeString ",i" ++ oscEncodeInt i)
  | OscArg.float b =>
    Except.ok (oscEncodeString address ++ oscEncodeString ",f" ++ oscEncodeFloat b)
  | OscArg.str s =>
    Except.ok (oscEncodeString address ++ oscEncodeString ",s" ++ oscEncodeString s)
  | OscArg.other => Except.error OscError.unsupportedArgument

/-! ### Notification state machine (`state_manager.py`, class `StateManager`) -/

/-- One ledger entry: `{"type", "value", "state", "timestamp"}`. -/
structure Msg where
  type : String
  value : String
  state : String
  timestamp : String
deriving DecidableEq, Repr

instance : Inhabited Msg := ⟨⟨"", "", "", ""⟩⟩

def PARAM_PATH_OPACITY : String := "/composition/layers/6/video/opacity"

def PARAM_PATH : String :=
  "/composition/layers/6/clips/1/video/effects/textblock/effect/text/params/lines"

def PARAM_PATH_CONNECT : String := "/composition/layers/6/clips/1/connect"

/-- IEEE-754 single-precision bit pattern of the Python literal `0.0`. -/
def floatBits0 : Nat := 0

/-- IEEE-754 single-precision bit pattern of the Python literal `1.0`
(hex 3F800000). -/
def floatBits1 : Nat := 1065353216

/-- One `_send_resolume_message(path, value)` call (the UDP send is
fire-and-forget and any exception is caught and logged inside it). -/
structure OscSend where
  path : String
  arg : OscArg
deriving DecidableEq, Repr

/-- One display-queue item `{"type", "value"}`. -/
structure DisplayCmd where
  type : String
  value : String
deriving DecidableEq, Repr

/-- One LED-queue item `{"state"}`. -/
structure LedCmd where
  state : String
deriving DecidableEq, Repr

/-- The mutable state of `StateManager` relevant to the ledger claims:
`_messages`, `_current_display_message_index`, `_current_osc_index`,
`_active_resolume_task_id`, and whether `_messages_dirty` is set. -/
structure SMState where
  messages : List Msg
  displayIdx : Int
  oscIdx : Int
  activeTaskId : Nat
  dirty : Bool
deriving DecidableEq, Repr

/-- Python `self._max_messages = 5`. -/
def maxMessages : Nat := 5

/-- In-place update of field `state` of the list element at position `k`. -/
def setStateAt : List Msg → Nat → String → List Msg
  | [], _, _ => []
  | m :: rest, 0, st => { m with state := st } :: rest
  | m :: rest, k + 1, st => m :: setStateAt rest k st

/-- Python `StateManager.update_state`: guarded by
`index != -1 and index <= len(self._messages) - 1`; inside the guard,
`self._messages[index]["state"] = new_state` follows Python list-index
semantics (a negative index wraps from the end; an index below `-len` raises
`IndexError`, modeled as `Except.error ()`), then the dirty event is set.
Outside the guard a warning is logged and nothing changes. -/
def update_state (st : SMState) (index : Int) (newState : String) :
    Except Unit SMState :=
  if index ≠ -1 ∧ index ≤ (st.messages.length : Int) - 1 then
    if 0 ≤ index then
      Except.ok { st with
        messages := setStateAt st.messages index.toNat newState, dirty := true }
    else if -(st.messages.length : Int) ≤ index then
      Except.ok { st with
        messages := setStateAt st.messages
          (st.messages.length - (-index).toNat) newState,
        dirty := true }
    else Except.error ()
  else Except.ok st

/-- Python `l[index]` read with negative-index wrapping; out-of-range raises
`IndexError`. -/
def pyGet (l : List Msg) (index : Int) : Except Unit Msg :=
  if 0 ≤ index ∧ index < (l.length : Int) then
    Except.ok (l.getD index.toNat default)
  else if -(l.length : Int) ≤ index ∧ index < 0 then
    Except.ok (l.getD (l.length - (-index).toNat) default)
  else Except.error ()

/-- Shared body of `_handle_pickup` / `_handle_parking` / `_handle_emergency`:
append the new `wait` entry, point the display cursor at it, set the dirty
event, and decrement the OSC cursor by one when it is set. -/
def appendEntry (st : SMState) (entry : Msg) : SMState :=
  { st with
    messages := st.messages ++ [entry]
    displayIdx := ((st.messages ++ [entry]).length : Int) - 1
    dirty := true
    oscIdx := if st.oscIdx ≠ -1 then st.oscIdx - 1 else st.oscIdx }

/-- Python `StateManager._handle_pickup`: ledger append plus the display and LED
queue items it enqueues. `ts` is the RTC timestamp string. -/
def handle_pickup (st : SMState) (v ts : String) :
    SMState × List DisplayCmd × List LedCmd :=
  (appendEntry st ⟨"PICKUP", v, "wait", ts⟩,
   [⟨"NEWTEXT", "Kind abholen: " ++ v⟩], [⟨"ON"⟩])

/-- Python `StateManager._handle_parking`. -/
def handle_parking (st : SMState) (v ts : String) :
    SMState × List DisplayCmd × List LedCmd :=
  (appendEntry st ⟨"PARKING", v, "wait", ts⟩,
   [⟨"NEWTEXT", "Umparken: " ++ v⟩], [⟨"ON"⟩])

/-- The fixed emergency message value. -/
def emergencyText : String :=
  "Ersthelfer / medizinisches Fachpersonal bitte zum Kids Check-In"

/-- Python `StateManager._handle_emergency`. -/
def handle_emergency (st : SMState) (ts : String) :
    SMState × List DisplayCmd × List LedCmd :=
  (appendEntry st ⟨"EMERGENCY", emergencyText, "wait", ts⟩,
   [⟨"NEWTEXT", "Ersthelfer zum Kids Check-In"⟩], [⟨"ON"⟩])

/-- An append-producing event, for quantifying over arbitrary sequences of
Pickup/Parking/Emergency handler runs. -/
inductive AppendEv where
  | pickup (v ts : String)
  | parking (v ts : String)
  | emergency (ts : String)

/-- The state component of the handler for one append event. -/
def applyAppend (st : SMState) : AppendEv → SMState
  | AppendEv.pickup v ts => (handle_pickup st v ts).1
  | AppendEv.parking v ts => (handle_parking st v ts).1
  | AppendEv.emergency ts => (handle_emergency st ts).1

/-- A sequence of append handlers, run in order. -/
def runAppends (st : SMState) : List AppendEv → SMState
  | [] => st
  | e :: rest => runAppends (applyAppend st e) rest

/-- Python `StateManager._write_messages_to_file` (the debounced commit): pops oldest
entries until at most `maxMessages` remain, then — when evictions occurred and
the display cursor is set — shifts the display cursor down by the eviction
count, floored at `-1`. The OSC cursor is not touched here. The file write
itself is wrapped in `try/except` and cannot alter the in-memory result. -/
def write_messages (st : SMState) : SMState :=
  let removed := st.messages.length - maxMessages
  { st with
    messages := st.messages.drop removed
    displayIdx :=
      if 0 < removed ∧ st.displayIdx ≠ -1 then max (-1) (st.displayIdx - removed)
      else st.displayIdx }

/-- The deferred `auto_clear(index, task_id)` coroutine body scheduled by
`_handle_accept`, acting after its 45 s sleep: if the captured `task_id` no
longer equals `_active_resolume_task_id`, it returns with no sends and no
state change; otherwise it sends opacity `0.0` and connect `0`, sets the
captured message's state to `"show"`, and clears the OSC cursor to `-1`.
(In the source the two sends precede the `update_state` call;
`_send_resolume_message` catches its own exceptions.) -/
def auto_clear (st : SMState) (index : Int) (taskId : Nat) :
    Except Unit (SMState × List OscSend) :=
  if taskId ≠ st.activeTaskId then Except.ok (st, [])
  else
    match update_state st index "show" with
    | Except.error e => Except.error e
    | Except.ok st2 =>
      Except.ok ({ st2 with oscIdx := -1 },
        [⟨PARAM_PATH_OPACITY, OscArg.float floatBits0⟩,
         ⟨PARAM_PATH_CONNECT, OscArg.int 0⟩])

/-- The kind-specific human-readable text built in `_handle_accept`
(`message_text`); empty for an unknown type. -/
def kindText (m : Msg) : String :=
  if m.type = "PICKUP" then
    "Die Eltern von: " ++ m.value ++ " bitte zum Kids Check-in kommen"
  else if m.type = "PARKING" then "Fahrzeug bitte umparken: " ++ m.value
  else if m.type = "EMERGENCY" then emergencyText
  else ""

/-- Python `StateManager._handle_accept`: result is the new state, the OSC sends, the
display-queue items, the LED-queue items, and the scheduled `auto_clear`
tasks as `(captured index, captured task id)` pairs. -/
def handle_accept (st : SMState) :
    Except Unit (SMState × List OscSend × List DisplayCmd × List LedCmd × List (Int × Nat)) :=
  match (if st.oscIdx ≠ -1 then update_state st st.oscIdx "show" else Except.ok st) with
  | Except.error e => Except.error e
  | Except.ok st1 =>
    if st1.displayIdx = -1 then Except.ok (st1, [], [], [], [])
    else
      match pyGet st1.messages st1.displayIdx with
      | Except.error e => Except.error e
      | Except.ok entry =>
        match update_state st1 st1.displayIdx "accepted" with
        | Except.error e => Except.error e
        | Except.ok st2 =>
          let mt := kindText entry
          let st3 := if mt ≠ "" then { st2 with oscIdx := st2.displayIdx } else st2
          let sends :=
            if mt ≠ "" then
              [⟨PARAM_PATH, OscArg.str mt⟩,
               ⟨PARAM_PATH_OPACITY, OscArg.float floatBits1⟩,
               ⟨PARAM_PATH_CONNECT, OscArg.int 1⟩]
            else ([] : List OscSend)
          let st4 := { st3 with activeTaskId := st3.activeTaskId + 1 }
          Except.ok ({ st4 with displayIdx := -1 }, sends,
            [⟨"DELETETEXT", ""⟩], [⟨"OFF"⟩], [(st4.displayIdx, st4.activeTaskId)])

/-! ### Concrete demo states used by witnesses and counterexamples -/

def demoMsg1 : Msg := ⟨"PICKUP", "Anna", "wait", "01.01.2025 10:00"⟩

def demoMsg2 : Msg := ⟨"PARKING", "HH-AB 123", "wait", "01.01.2025 10:05"⟩

def demoSM : SMState := ⟨[demoMsg1, demoMsg2], -1, -1, 0, false⟩

def demoLedger5 : List Msg :=
  [⟨"PICKUP", "A", "wait", "t1"⟩, ⟨"PICKUP", "B", "wait", "t2"⟩,
   ⟨"PARKING", "C", "wait", "t3"⟩, ⟨"EMERGENCY", emergencyText, "wait", "t4"⟩,
   ⟨"PICKUP", "D", "wait", "t5"⟩]

def demoSM5 : SMState := ⟨demoLedger5, 4, 2, 3, false⟩

def demoSM7 : SMState := ⟨[demoMsg1, demoMsg2, ⟨"PICKUP", "Ben", "wait", "t3"⟩], 2, -1, 0, false⟩

/-- Decidable equality for `Except`, used by concrete witness evaluations. -/
def exceptDecEq {ε α : Type} [DecidableEq ε] [DecidableEq α] :
    (a b : Except ε α) → Decidable (a = b)
  | Except.error e1, Except.error e2 =>
    if h : e1 = e2 then Decidable.isTrue (by rw [h])
    else Decidable.isFalse (fun hh => h (by injection hh))
  | Except.error _, Except.ok _ => Decidable.isFalse (fun hh => Except.noConfusion hh)
  | Except.ok _, Except.error _ => Decidable.isFalse (fun hh => Except.noConfusion hh)
  | Except.ok a1, Except.ok a2 =>
    if h : a1 = a2 then Decidable.isTrue (by rw [h])
    else Decidable.isFalse (fun hh => h (by injection hh))

instance {ε α : Type} [DecidableEq ε] [DecidableEq α] : DecidableEq (Except ε α) :=
  exceptDecEq

theorem dequeAppend_of_lt {α : Type} (maxlen : Nat) (l : List α) (x : α)
    (h : l.length < maxlen) : dequeAppend maxlen l x = l ++ [x] := by
  unfold dequeAppend
  rw [if_neg (by omega)]

theorem dequeAppend_length_le {α : Type} (maxlen : Nat) (l : List α) (x : α)
    (hpos : 0 < maxlen) (h : l.length ≤ maxlen) :
    (dequeAppend maxlen l x).length ≤ maxlen := by
  unfold dequeAppend
  split
  · have ht : l.tail.length = l.length - 1 := List.length_tail l
    simp only [List.length_append, ht, List.length_cons, List.length_nil]
    omega
  · simp only [List.length_append, List.length_cons, List.length_nil]
    omega

/-- Core invariant for bounded queues (`maxsize > 0`): along any runnable
history, the size never exceeds `maxsize` and the returned items followed by
the still-queued items equal the initially queued items followed by the put
items, in order (FIFO, nothing lost, nothing reordered). -/
theorem runOps_bounded_fifo {α : Type} :
    ∀ (ops : List (QOp α)) (q q' : AQueue α) (gots : List α),
      0 < q.maxsize → q.dequeMaxlen = q.maxsize → q.items.length ≤ q.maxsize →
      runOps q ops = some (q', gots) →
      (q'.maxsize = q.maxsize ∧ q'.dequeMaxlen = q.maxsize ∧
        q'.items.length ≤ q.maxsize ∧ gots ++ q'.items = q.items ++ putsOf ops) := by
  intro ops
  induction ops with
  | nil =>
    intro q q' gots hpos hml hlen hrun
    simp only [runOps, Option.some.injEq, Prod.mk.injEq] at hrun
    obtain ⟨hq, hg⟩ := hrun
    subst hq
    subst hg
    exact ⟨rfl, hml, hlen, by simp [putsOf]⟩
  | cons op rest ih =>
    intro q q' gots hpos hml hlen hrun
    cases op with
    | put x =>
      simp only [runOps] at hrun
      by_cases hfull : q.maxsize ≤ q.items.length
      · rw [AQueue.tryPut, if_pos ⟨hpos, hfull⟩] at hrun
        cases hrun
      · rw [AQueue.tryPut, if_neg (by tauto)] at hrun
        have hlt : q.items.length < q.dequeMaxlen := by omega
        rw [dequeAppend_of_lt _ _ _ hlt] at hrun
        have h2 := ih { q with items := q.items ++ [x] } q' gots
          (by simpa using hpos) (by simpa using hml)
          (by simp only [List.length_append, List.length_cons, List.length_nil]; omega)
          hrun
        refine ⟨h2.1, h2.2.1, h2.2.2.1, ?_⟩
        have h3 := h2.2.2.2
        simp only [putsOf]
        simp only [List.append_assoc, List.singleton_append] at h3
        exact h3
    | get =>
      simp only [runOps] at hrun
      cases hq : q.items with
      | nil =>
        rw [AQueue.tryGet, hq] at hrun
        cases hrun
      | cons a t =>
        rw [AQueue.tryGet, hq] at hrun
        simp only at hrun
        cases hr2 : runOps { q with items := t } rest with
        | none => rw [hr2] at hrun; cases hrun
        | some pr =>
          obtain ⟨qf, gots2⟩ := pr
          rw [hr2] at hrun
          simp only [Option.some.injEq, Prod.mk.injEq] at hrun
          obtain ⟨hqf, hg⟩ := hrun
          subst hqf
          subst hg
          rw [hq] at hlen
          simp only [List.length_cons] at hlen
          have h2 := ih { q with items := t } qf gots2
            (by simpa using hpos) (by simpa using hml) (by simp only; omega) hr2
          refine ⟨h2.1, h2.2.1, h2.2.2.1, ?_⟩
          have h3 := h2.2.2.2
          simp only at h3
          simp only [putsOf, List.cons_append, h3]

/-- Cap invariant for "unbounded" queues (`maxsize == 0`): the internal deque
never holds more than its fallback `maxlen` of 20 items. -/
theorem runOps_unbounded_cap {α : Type} :
    ∀ (ops : List (QOp α)) (q q' : AQueue α) (gots : List α),
      q.maxsize = 0 → q.dequeMaxlen = 20 → q.items.length ≤ 20 →
      runOps q ops = some (q', gots) →
      (q'.maxsize = 0 ∧ q'.dequeMaxlen = 20 ∧ q'.items.length ≤ 20) := by
  intro ops
  induction ops with
  | nil =>
    intro q q' gots hms hml hlen hrun
    simp only [runOps, Option.some.injEq, Prod.mk.injEq] at hrun
    obtain ⟨hq, hg⟩ := hrun
    subst hq
    exact ⟨hms, hml, hlen⟩
  | cons op rest ih =>
    intro q q' gots hms hml hlen hrun
    cases op with
    | put x =>
      simp only [runOps] at hrun
      rw [AQueue.tryPut, if_neg (by omega)] at hrun
      have hlen2 : (dequeAppend q.dequeMaxlen q.items x).length ≤ 20 := by
        have := dequeAppend_length_le q.dequeMaxlen q.items x (by omega) (by omega)
        omega
      exact ih { q with items := dequeAppend q.dequeMaxlen q.items x } q' gots
        (by simpa using hms) (by simpa using hml) (by simpa using hlen2) hrun
    | get =>
      simp only [runOps] at hrun
      cases hq : q.items with
      | nil =>
        rw [AQueue.tryGet, hq] at hrun
        cases hrun
      | cons a t =>
        rw [AQueue.tryGet, hq] at hrun
        simp only at hrun
        cases hr2 : runOps { q with items := t } rest with
        | none => rw [hr2] at hrun; cases hrun
        | some pr =>
          obtain ⟨qf, gots2⟩ := pr
          rw [hr2] at hrun
          simp only [Option.some.injEq, Prod.mk.injEq] at hrun
          obtain ⟨hqf, hg⟩ := hrun
          subst hqf
          rw [hq] at hlen
          simp only [List.length_cons] at hlen
          exact ih { q with items := t } qf gots2
            (by simpa using hms) (by simpa using hml) (by simp only; omega) hr2

/-- C4: for every queue constructed with capacity `C > 0` and every
interleaved sequence of put/get operations, `put` suspends exactly while `C`
items are held, the queue size never exceeds `C` at any observable instant,
and `get` always returns the oldest unconsumed item: the returned items
followed by the still-queued items equal the put items, in order (FIFO). -/
theorem c4_bounded_queue_invariant_fifo {α : Type} (C : Nat) (hC : 0 < C) :
    (∀ (q : AQueue α) (x : α), q.maxsize = C →
        (q.tryPut x = none ↔ C ≤ q.items.length))
    ∧ ∀ (ops : List (QOp α)) (q' : AQueue α) (gots : List α),
        runOps (newQueue α C) ops = some (q', gots) →
        q'.items.length ≤ C ∧ gots ++ q'.items = putsOf ops := by
  constructor
  · intro q x hms
    unfold AQueue.tryPut
    by_cases h : C ≤ q.items.length
    · rw [if_pos (by omega)]
      simp [h]
    · rw [if_neg (by omega)]
      simp [h]
  · intro ops q' gots hrun
    have h := runOps_bounded_fifo ops (newQueue α C) q' gots
      (by simpa [newQueue] using hC) (by simp [newQueue, hC]) (by simp [newQueue]) hrun
    refine ⟨?_, ?_⟩
    · have := h.2.2.1
      simpa [newQueue] using this
    · have := h.2.2.2
      simpa [newQueue] using this

/-- Witness for C4 at capacity 2 and the history
put 3, put 4, get, put 5, get, get. -/
theorem c4_witness :
    ((AQueue.mk 2 2 [5, 6] : AQueue Nat).tryPut 7 = none
      ↔ 2 ≤ (AQueue.mk 2 2 [5, 6] : AQueue Nat).items.length)
    ∧ ((AQueue.mk 2 2 [] : AQueue Nat).items.length ≤ 2
       ∧ [3, 4, 5] ++ (AQueue.mk 2 2 [] : AQueue Nat).items
           = putsOf [QOp.put 3, QOp.put 4, QOp.get, QOp.put 5, QOp.get, QOp.get]) :=
  ⟨(c4_bounded_queue_invariant_fifo 2 (by decide)).1 (AQueue.mk 2 2 [5, 6]) 7 rfl,
   (c4_bounded_queue_invariant_fifo 2 (by decide)).2
     [QOp.put 3, QOp.put 4, QOp.get, QOp.put 5, QOp.get, QOp.get]
     (AQueue.mk 2 2 []) [3, 4, 5] (by decide)⟩

/-- C10: for a queue constructed with capacity 0 ("unbounded" mode),
construction succeeds with an internal deque `maxlen` of 20, `put` never
suspends and `full()` always returns `False` regardless of how many items are
held, and along any runnable history the internal storage never exceeds the
fallback bound of 20 elements. -/
theorem c10_unbounded_queue {α : Type} :
    (initQueue α 0 = Except.ok (newQueue α 0) ∧ (newQueue α 0).dequeMaxlen = 20)
    ∧ (∀ (q : AQueue α) (x : α), q.maxsize = 0 → (q.tryPut x).isSome = true)
    ∧ (∀ q : AQueue α, q.maxsize = 0 → q.full = false)
    ∧ ∀ (ops : List (QOp α)) (q' : AQueue α) (gots : List α),
        runOps (newQueue α 0) ops = some (q', gots) → q'.items.length ≤ 20 := by
  refine ⟨⟨rfl, rfl⟩, ?_, ?_, ?_⟩
  · intro q x hms
    unfold AQueue.tryPut
    rw [if_neg (by omega)]
    rfl
  · intro q hms
    simp [AQueue.full, hms]
  · intro ops q' gots hrun
    exact (runOps_unbounded_cap ops (newQueue α 0) q' gots rfl rfl
      (by simp [newQueue]) hrun).2.2

/-- Witness for C10: a queue in capacity-0 mode accepts a put and reports not
full even while holding 25 items, and a concrete run stays within 20. -/
theorem c10_witness :
    (((AQueue.mk 0 20 (List.replicate 25 (0 : Nat))).tryPut 9).isSome = true)
    ∧ (AQueue.mk 0 20 (List.replicate 25 (0 : Nat))).full = false
    ∧ (AQueue.mk 0 20 [(1 : Nat)]).items.length ≤ 20 :=
  ⟨(c10_unbounded_queue (α := Nat)).2.1 (AQueue.mk 0 20 (List.replicate 25 0)) 9 rfl,
   (c10_unbounded_queue (α := Nat)).2.2.1 (AQueue.mk 0 20 (List.replicate 25 0)) rfl,
   (c10_unbounded_queue (α := Nat)).2.2.2 [QOp.put 1] (AQueue.mk 0 20 [1]) [] (by decide)⟩

/-- C5 counterexample: two raw edges on pin 15 at timestamps 0 and 200
(Δ = 200 ms, so Δ ≥ 200 ms) yield only ONE accepted logical event, because the
debounce comparison in `_button_task` is strict (`ts - last > 200`); this
refutes "if Δ ≥ 200 ms, two accepted logical events are produced". -/
theorem c5_counterexample :
    (200 : Int) - 0 ≥ 200
    ∧ (debounceRun [] [(15, 0), (15, 200)]).2 = [(15, 0)] :=
  ⟨by decide, by decide⟩

/-- C5 amended: for two raw edges on the same pin at timestamps `t` and
`t + d`, the debounce task accepts exactly one event (the first) when
`d ≤ 200 ms`, and exactly two when `d > 200 ms`; an event is accepted only if
its timestamp exceeds the last accepted timestamp for that pin by strictly
more than 200 ms. -/
theorem c5_debounce_amended (pin : Nat) (t d : Int) :
    (d ≤ 200 → (debounceRun [] [(pin, t), (pin, t + d)]).2 = [(pin, t)])
    ∧ (200 < d →
        (debounceRun [] [(pin, t), (pin, t + d)]).2 = [(pin, t), (pin, t + d)]) := by
  constructor
  · intro h
    have hc : ¬ (DEBOUNCE_MS < d) := by
      simp only [DEBOUNCE_MS]
      omega
    simp [debounceRun, debounceStep, lookupPin, insertPin, hc]
  · intro h
    have hc : DEBOUNCE_MS < d := by
      simp only [DEBOUNCE_MS]
      omega
    simp [debounceRun, debounceStep, lookupPin, insertPin, hc]

/-- Witness for C5 amended, at pin 15, t = 0, with d = 100 and d = 300. -/
theorem c5_witness :
    (debounceRun [] [(15, 0), (15, 0 + 100)]).2 = [(15, 0)]
    ∧ (debounceRun [] [(15, 0), (15, 0 + 300)]).2 = [(15, 0), (15, 0 + 300)] :=
  ⟨(c5_debounce_amended 15 0 100).1 (by decide),
   (c5_debounce_amended 15 0 300).2 (by decide)⟩

/-- C6: for every string `s`, the OSC string encoding is the UTF-8 bytes of
`s`, one NUL byte, then fewer than four additional NUL bytes bringing the
total length to a multiple of 4; in particular "/x" encodes to
2F 78 00 00 and "/xyz" to 2F 78 79 7A 00 00 00 00. -/
theorem c6_osc_string_encoding :
    (∀ s : String, ∃ k, k < 4 ∧
        oscEncodeString s = utf8Encode s ++ [0] ++ List.replicate k 0 ∧
        (oscEncodeString s).length % 4 = 0)
    ∧ oscEncodeString "/x" = [47, 120, 0, 0]
    ∧ oscEncodeString "/xyz" = [47, 120, 121, 122, 0, 0, 0, 0] := by
  refine ⟨?_, by decide, by decide⟩
  intro s
  refine ⟨(4 - (utf8Encode s ++ [0]).length % 4) % 4, Nat.mod_lt _ (by omega), ?_, ?_⟩
  · simp [oscEncodeString, List.append_assoc]
  · simp only [oscEncodeString, List.length_append, List.length_replicate]
    omega

/-- C8: `_osc_build_message` raises an error of the `UnsupportedArgument` kind
to the caller if and only if the argument is not an int, float, or string (the
error propagates, never silently dropped); for every supported argument the
packet equals the encoded address, then the encoded type-tag (",i" for int,
",f" for float, ",s" for string), then the encoded argument — for ints the
four big-endian bytes of the value truncated to 32 bits, since MicroPython's
`struct.pack('>i', ...)` performs no range check. The concrete conjuncts show
a packet of each kind, including the truncating encoding of `2^31`. -/
theorem c8_build_message_errors (address : String) :
    (∀ arg : OscArg,
        oscBuildMessage address arg = Except.error OscError.unsupportedArgument
          ↔ arg = OscArg.other)
    ∧ (∀ i : Int, oscBuildMessage address (OscArg.int i)
        = Except.ok (oscEncodeString address ++ oscEncodeString ",i" ++ oscEncodeInt i))
    ∧ (∀ b : Nat, oscBuildMessage address (OscArg.float b)
        = Except.ok (oscEncodeString address ++ oscEncodeString ",f" ++ oscEncodeFloat b))
    ∧ (∀ s : String, oscBuildMessage address (OscArg.str s)
        = Except.ok (oscEncodeString address ++ oscEncodeString ",s" ++ oscEncodeString s))
    ∧ oscBuildMessage "/a" (OscArg.int 2147483648)
        = Except.ok (oscEncodeString "/a" ++ oscEncodeString ",i" ++ [128, 0, 0, 0])
    ∧ oscBuildMessage "/a" (OscArg.int (-1))
        = Except.ok (oscEncodeString "/a" ++ oscEncodeString ",i" ++ [255, 255, 255, 255]) := by
  refine ⟨?_, fun i => rfl, fun b => rfl, fun s => rfl, by decide, by decide⟩
  intro arg
  constructor
  · intro h
    cases arg with
    | int i => rw [oscBuildMessage] at h; cases h
    | float b => rw [oscBuildMessage] at h; cases h
    | str s => rw [oscBuildMessage] at h; cases h
    | other => rfl
  · intro h
    subst h
    rfl

theorem replaceChar_of_not_mem (c : Char) (r : List Char) :
    ∀ l : List Char, c ∉ l → replaceChar c r l = l := by
  intro l
  induction l with
  | nil => intro _; rfl
  | cons x xs ih =>
    intro h
    simp only [replaceChar]
    rw [if_neg (show ¬ x = c from
      fun hx => h (by rw [← hx]; exact List.mem_cons_self x xs))]
    rw [ih (fun hm => h (List.mem_cons_of_mem x hm))]
    rfl

theorem umlautReplace_id_of_allowed (l : List Char)
    (h : ∀ c ∈ l, allowedChar c = true) : umlautReplace l = l := by
  have hn : ∀ u : Char, allowedChar u = false → u ∉ l := by
    intro u hu hm
    rw [h u hm] at hu
    cases hu
  unfold umlautReplace
  rw [replaceChar_of_not_mem _ _ _ (hn 'ä' (by decide)),
      replaceChar_of_not_mem _ _ _ (hn 'ö' (by decide)),
      replaceChar_of_not_mem _ _ _ (hn 'ü' (by decide)),
      replaceChar_of_not_mem _ _ _ (hn 'Ä' (by decide)),
      replaceChar_of_not_mem _ _ _ (hn 'Ö' (by decide)),
      replaceChar_of_not_mem _ _ _ (hn 'Ü' (by decide)),
      replaceChar_of_not_mem _ _ _ (hn 'ß' (by decide))]

theorem allowedChar_spec (c : Char) (h : allowedChar c = true) :
    c.isAlphanum = true ∨ c = ' ' ∨ c = '.' ∨ c = '-' := by
  rw [allowedChar, decide_eq_true_eq] at h
  rcases h with ⟨h1, h2⟩ | ⟨h1, h2⟩ | ⟨h1, h2⟩ | h | h | h
  · left
    simp only [Char.isAlphanum, Char.isAlpha, Char.isDigit, Char.isUpper, Char.isLower,
      Bool.or_eq_true, Bool.and_eq_true, decide_eq_true_eq, ge_iff_le, UInt32.le_def,
      BitVec.le_def]
    exact Or.inr ⟨h1, h2⟩
  · left
    simp only [Char.isAlphanum, Char.isAlpha, Char.isDigit, Char.isUpper, Char.isLower,
      Bool.or_eq_true, Bool.and_eq_true, decide_eq_true_eq, ge_iff_le, UInt32.le_def,
      BitVec.le_def]
    exact Or.inl (Or.inl ⟨h1, h2⟩)
  · left
    simp only [Char.isAlphanum, Char.isAlpha, Char.isDigit, Char.isUpper, Char.isLower,
      Bool.or_eq_true, Bool.and_eq_true, decide_eq_true_eq, ge_iff_le, UInt32.le_def,
      BitVec.le_def]
    exact Or.inl (Or.inr ⟨h1, h2⟩)
  · exact Or.inr (Or.inl h)
  · exact Or.inr (Or.inr (Or.inl h))
  · exact Or.inr (Or.inr (Or.inr h))

/-- C9: display text sanitization is idempotent, and every character of its
output is an ASCII alphanumeric, space, period, or hyphen. -/
theorem c9_sanitize_idempotent_output :
    (∀ s : String, sanitize_text (sanitize_text s) = sanitize_text s)
    ∧ ∀ (s : String) (c : Char), c ∈ (sanitize_text s).data →
        (c.isAlphanum = true ∨ c = ' ' ∨ c = '.' ∨ c = '-') := by
  have hall : ∀ (s : String) (c : Char), c ∈ (sanitize_text s).data →
      allowedChar c = true := by
    intro s c hc
    simp only [sanitize_text] at hc
    exact (List.mem_filter.mp hc).2
  constructor
  · intro s
    have h1 : umlautReplace (sanitize_text s).data = (sanitize_text s).data :=
      umlautReplace_id_of_allowed _ (hall s)
    show String.mk ((umlautReplace (sanitize_text s).data).filter allowedChar)
      = sanitize_text s
    rw [h1, List.filter_eq_self.mpr (hall s)]
  · intro s c hc
    exact allowedChar_spec c (hall s c hc)

/-- Witness for C9 at the input "Grüße 42!" and the output character 'G'. -/
theorem c9_witness :
    sanitize_text (sanitize_text "Grüße 42!") = sanitize_text "Grüße 42!"
    ∧ ('G'.isAlphanum = true ∨ 'G' = ' ' ∨ 'G' = '.' ∨ 'G' = '-') :=
  ⟨c9_sanitize_idempotent_output.1 "Grüße 42!",
   c9_sanitize_idempotent_output.2 "Grüße 42!" 'G' (by decide)⟩

theorem update_state_in_range (st : SMState) (index : Int) (ns : String)
    (h1 : 0 ≤ index) (h2 : index < (st.messages.length : Int)) :
    update_state st index ns
      = Except.ok { st with messages := setStateAt st.messages index.toNat ns,
                            dirty := true } := by
  rw [update_state, if_pos (by omega), if_pos h1]

theorem update_state_noop (st : SMState) (index : Int) (ns : String)
    (h : index = -1 ∨ (st.messages.length : Int) ≤ index) :
    update_state st index ns = Except.ok st := by
  rcases h with h | h <;> rw [update_state, if_neg (by omega)]

theorem update_state_neg_wrap (st : SMState) (index : Int) (ns : String)
    (h1 : -(st.messages.length : Int) ≤ index) (h2 : index ≤ -2) :
    update_state st index ns
      = Except.ok { st with
          messages := setStateAt st.messages (st.messages.length - (-index).toNat) ns,
          dirty := true } := by
  rw [update_state, if_pos (by omega), if_neg (by omega), if_pos h1]

theorem update_state_raise (st : SMState) (index : Int) (ns : String)
    (h1 : index < -(st.messages.length : Int)) (h2 : index ≠ -1) :
    update_state st index ns = Except.error () := by
  rw [update_state, if_pos (by omega), if_neg (by omega), if_neg (by omega)]

/-- C3 counterexample: on a two-message ledger, the index `-2` lies outside
`[0, len-1]`, yet `update_state` does NOT leave the ledger unchanged — the
guard `index != -1 and index <= len - 1` admits it and Python's negative
indexing mutates `messages[0]` (and marks dirty); moreover the index `-3`
raises `IndexError` instead of no-opping. -/
theorem c3_counterexample :
    ((-2 : Int) < 0 ∨ (demoSM.messages.length : Int) ≤ -2)
    ∧ update_state demoSM (-2) "accepted"
        = Except.ok { demoSM with
            messages := [{ demoMsg1 with state := "accepted" }, demoMsg2],
            dirty := true }
    ∧ update_state demoSM (-2) "accepted" ≠ Except.ok demoSM
    ∧ update_state demoSM (-3) "accepted" = Except.error () :=
  ⟨by decide, by decide, by decide, by decide⟩

/-- C3 amended: `update_state(index, new_state)` validates only
`index ≠ -1 ∧ index ≤ len - 1`. For `index ∈ [0, len-1]` it sets that
message's state and marks the ledger dirty; for `index = -1` or `index ≥ len`
it logs and leaves the ledger unchanged; but a negative index in `[-len, -2]`
mutates the message at position `len + index` (Python wrap-around) and marks
dirty, and an index below `-len` (other than `-1`) raises `IndexError`. -/
theorem c3_update_state_amended (st : SMState) (index : Int) (ns : String) :
    (0 ≤ index → index < (st.messages.length : Int) →
        update_state st index ns
          = Except.ok { st with messages := setStateAt st.messages index.toNat ns,
                                dirty := true })
    ∧ ((index = -1 ∨ (st.messages.length : Int) ≤ index) →
        update_state st index ns = Except.ok st)
    ∧ (-(st.messages.length : Int) ≤ index → index ≤ -2 →
        update_state st index ns
          = Except.ok { st with
              messages := setStateAt st.messages
                (st.messages.length - (-index).toNat) ns,
              dirty := true })
    ∧ (index < -(st.messages.length : Int) → index ≠ -1 →
        update_state st index ns = Except.error ()) :=
  ⟨update_state_in_range st index ns, update_state_noop st index ns,
   update_state_neg_wrap st index ns, update_state_raise st index ns⟩

/-- Witness for C3 amended: all four branches at a concrete two-message
ledger. -/
theorem c3_witness :
    update_state demoSM 0 "show"
      = Except.ok { demoSM with messages := setStateAt demoSM.messages 0 "show",
                                dirty := true }
    ∧ update_state demoSM 5 "show" = Except.ok demoSM
    ∧ update_state demoSM (-2) "show"
      = Except.ok { demoSM with
          messages := setStateAt demoSM.messages
            (demoSM.messages.length - (-(-2 : Int)).toNat) "show",
          dirty := true }
    ∧ update_state demoSM (-3) "show" = Except.error () :=
  ⟨(c3_update_state_amended demoSM 0 "show").1 (by decide) (by decide),
   (c3_update_state_amended demoSM 5 "show").2.1 (Or.inr (by decide)),
   (c3_update_state_amended demoSM (-2) "show").2.2.1 (by decide) (by decide),
   (c3_update_state_amended demoSM (-3) "show").2.2.2 (by decide) (by decide)⟩

/-- C1: after any sequence of Pickup/Parking/Emergency appends, the committed
ledger holds at most 5 messages; and committing right after an append onto a
full (5-entry) ledger evicts the oldest entry, leaving the most recent 5 in
arrival order, with the display cursor shifted down by the eviction count (to
4, still the new entry) and the OSC (remote) cursor shifted down by the
eviction count, floored at -1. -/
theorem c1_ledger_cap_evict :
    (∀ (st : SMState) (evs : List AppendEv),
        (write_messages (runAppends st evs)).messages.length ≤ 5)
    ∧ ∀ (st : SMState) (entry : Msg),
        st.messages.length = 5 → -1 ≤ st.oscIdx →
        ((write_messages (appendEntry st entry)).messages
            = st.messages.drop 1 ++ [entry]
          ∧ (write_messages (appendEntry st entry)).displayIdx = 4
          ∧ (write_messages (appendEntry st entry)).oscIdx
              = max (-1) (st.oscIdx - 1)) := by
  have cap : ∀ s : SMState, (write_messages s).messages.length ≤ 5 := by
    intro s
    simp only [write_messages, maxMessages, List.length_drop]
    omega
  constructor
  · intro st evs
    exact cap _
  · intro st entry h5 hosc
    have hmsgs : (appendEntry st entry).messages = st.messages ++ [entry] := by
      simp [appendEntry]
    have hlen6 : (appendEntry st entry).messages.length = 6 := by
      simp [hmsgs, h5]
    refine ⟨?_, ?_, ?_⟩
    · have hlen' : (st.messages ++ [entry]).length = 6 := by simp [h5]
      simp only [write_messages, maxMessages, hmsgs, hlen']
      rw [List.drop_append_of_le_length (by omega)]
    · have hd : (appendEntry st entry).displayIdx = 5 := by
        simp [appendEntry, List.length_append, h5]
      simp only [write_messages, maxMessages, hlen6, hd]
      decide
    · simp only [write_messages, appendEntry]
      by_cases h : st.oscIdx = -1
      · simp [h]
      · rw [if_pos h]
        omega

/-- Witness for C1 at a concrete full ledger with both cursors set. -/
theorem c1_witness :
    (write_messages (runAppends demoSM5 [AppendEv.pickup "X" "t6"])).messages.length ≤ 5
    ∧ ((write_messages (appendEntry demoSM5 demoMsg1)).messages
          = demoSM5.messages.drop 1 ++ [demoMsg1]
       ∧ (write_messages (appendEntry demoSM5 demoMsg1)).displayIdx = 4
       ∧ (write_messages (appendEntry demoSM5 demoMsg1)).oscIdx
           = max (-1) (demoSM5.oscIdx - 1)) :=
  ⟨c1_ledger_cap_evict.1 demoSM5 [AppendEv.pickup "X" "t6"],
   c1_ledger_cap_evict.2 demoSM5 demoMsg1 (by decide) (by decide)⟩

/-- C2: the deferred 45-second auto-clear scheduled by an Accept is a silent
no-op (no sends, no state change) when the generation counter has moved past
the captured value; when it still equals the captured value, it sends opacity
off (`0.0`) and connect off (`0`), transitions the captured message's state to
"show", and clears the OSC (remote) cursor to -1. -/
theorem c2_auto_clear_generation (st : SMState) (index : Int) (taskId : Nat) :
    (taskId ≠ st.activeTaskId → auto_clear st index taskId = Except.ok (st, []))
    ∧ (taskId = st.activeTaskId → 0 ≤ index → index < (st.messages.length : Int) →
        auto_clear st index taskId
          = Except.ok
              ({ st with messages := setStateAt st.messages index.toNat "show",
                         oscIdx := -1, dirty := true },
               [⟨PARAM_PATH_OPACITY, OscArg.float floatBits0⟩,
                ⟨PARAM_PATH_CONNECT, OscArg.int 0⟩])) := by
  constructor
  · intro h
    rw [auto_clear, if_pos h]
  · intro heq h1 h2
    rw [auto_clear, if_neg (not_not_intro heq),
      update_state_in_range st index "show" h1 h2]

/-- Witness for C2: a stale task id (7 ≠ 3) is a no-op; the live task id (3)
clears remote state on the concrete five-message ledger. -/
theorem c2_witness :
    auto_clear demoSM5 1 7 = Except.ok (demoSM5, [])
    ∧ auto_clear demoSM5 1 3
        = Except.ok
            ({ demoSM5 with messages := setStateAt demoSM5.messages (1 : Int).toNat "show",
                            oscIdx := -1, dirty := true },
             [⟨PARAM_PATH_OPACITY, OscArg.float floatBits0⟩,
              ⟨PARAM_PATH_CONNECT, OscArg.int 0⟩]) :=
  ⟨(c2_auto_clear_generation demoSM5 1 7).1 (by decide),
   (c2_auto_clear_generation demoSM5 1 3).2 rfl (by decide) (by decide)⟩

theorem kindText_ne_empty (m : Msg)
    (hk : m.type = "PICKUP" ∨ m.type = "PARKING" ∨ m.type = "EMERGENCY") :
    kindText m ≠ "" := by
  rcases hk with hk | hk | hk
  · intro hempty
    rw [kindText, if_pos hk] at hempty
    have hlen := congrArg String.length hempty
    rw [String.length_append, String.length_append] at hlen
    have e1 : 0 < ("Die Eltern von: ").length := by decide
    have e3 : ("" : String).length = 0 := rfl
    omega
  · intro hempty
    rw [kindText, if_neg (show ¬ m.type = "PICKUP" from by rw [hk]; decide),
      if_pos hk] at hempty
    have hlen := congrArg String.length hempty
    rw [String.length_append] at hlen
    have e1 : 0 < ("Fahrzeug bitte umparken: ").length := by decide
    have e3 : ("" : String).length = 0 := rfl
    omega
  · intro hempty
    rw [kindText, if_neg (show ¬ m.type = "PICKUP" from by rw [hk]; decide),
      if_neg (show ¬ m.type = "PARKING" from by rw [hk]; decide),
      if_pos hk] at hempty
    exact absurd hempty (by decide)

/-- C7: processing an Accept while the display cursor is 2 and the OSC
(remote) cursor is -1, on a ledger with a message of one of the three kinds at
position 2, sets message[2].state to "accepted", sets the remote cursor to 2,
sends exactly the kind-specific text, opacity 1.0 and connect 1, clears the
display cursor to -1, enqueues a display delete and an LED off command, and
schedules one auto-clear task with the new generation value. -/
theorem c7_accept_scenario (st : SMState)
    (hd : st.displayIdx = 2) (ho : st.oscIdx = -1) (hl : 3 ≤ st.messages.length)
    (hk : (st.messages.getD 2 default).type = "PICKUP"
        ∨ (st.messages.getD 2 default).type = "PARKING"
        ∨ (st.messages.getD 2 default).type = "EMERGENCY") :
    handle_accept st
      = Except.ok
          ({ st with messages := setStateAt st.messages 2 "accepted",
                     displayIdx := -1, oscIdx := 2,
                     activeTaskId := st.activeTaskId + 1, dirty := true },
           [⟨PARAM_PATH, OscArg.str (kindText (st.messages.getD 2 default))⟩,
            ⟨PARAM_PATH_OPACITY, OscArg.float floatBits1⟩,
            ⟨PARAM_PATH_CONNECT, OscArg.int 1⟩],
           [⟨"DELETETEXT", ""⟩], [⟨"OFF"⟩], [(2, st.activeTaskId + 1)]) := by
  have hmt : kindText (st.messages.getD 2 default) ≠ "" := kindText_ne_empty _ hk
  have hstep1 : (if st.oscIdx ≠ -1 then update_state st st.oscIdx "show"
      else Except.ok st) = Except.ok st := by
    rw [ho]
    simp
  have hmt2 : ¬ kindText (st.messages[2]?.getD default) = "" := by
    simpa using hmt
  have hget : pyGet st.messages (2 : Int) = Except.ok (st.messages.getD 2 default) := by
    rw [pyGet, if_pos ⟨by omega, by omega⟩]
    rfl
  have hupd : update_state st (2 : Int) "accepted"
      = Except.ok { st with
          messages := setStateAt st.messages (2 : Int).toNat "accepted",
          dirty := true } :=
    update_state_in_range st 2 "accepted" (by omega) (by omega)
  rw [handle_accept, hstep1]
  simp [hd, hget, hupd, hmt2]

/-- Witness for C7 at a concrete three-message ledger with a PICKUP at
position 2. -/
theorem c7_witness :
    handle_accept demoSM7
      = Except.ok
          ({ demoSM7 with messages := setStateAt demoSM7.messages 2 "accepted",
                          displayIdx := -1, oscIdx := 2,
                          activeTaskId := demoSM7.activeTaskId + 1, dirty := true },
           [⟨PARAM_PATH, OscArg.str (kindText (demoSM7.messages.getD 2 default))⟩,
            ⟨PARAM_PATH_OPACITY, OscArg.float floatBits1⟩,
            ⟨PARAM_PATH_CONNECT, OscArg.int 1⟩],
           [⟨"DELETETEXT", ""⟩], [⟨"OFF"⟩], [(2, demoSM7.activeTaskId + 1)]) :=
  c7_accept_scenario demoSM7 rfl rfl (by decide) (Or.inl (by decide))

end AVNotif
